import Mathlib

/-!
Verification of the aggregate-root library (src/aggregate_root) against its
specification. The Python source is shallowly embedded: mutable attributes of
an aggregate instance become fields of an explicit state record, in-place
mutation becomes state passing, and raised exceptions become `Except` results.
Dictionaries become association lists with Python dict semantics (overwrite in
place, append new keys, first-match lookup). Class objects are identified by
their unique names (event classes) or numeric ids (registry entries).
-/

namespace AggregateRootLib

/-- Primitive field values carried by event dataclasses (flat fragment of the
PrimitiveType union in domain_event.py; nesting is not needed by any claim). -/
inductive PyVal where
  | str (s : String)
  | int (n : Int)
  | bool (b : Bool)
  | null
deriving DecidableEq

/-- Domain event instance: `etype` is the concrete Python class of the event
(class names are unique per the registry invariant, so a name identifies the
class object used as dispatch key by `type(event)`), `fields` is its dataclass
field dictionary in declaration order. -/
structure DomainEvent where
  etype : String
  fields : List (String × PyVal)
deriving DecidableEq

/-- Python dict read `d[k]` / `k in d`, as first-match association-list lookup
(keys are unique under `dictSet`, so first match is the match). -/
def dictGet {α : Type} (k : String) : List (String × α) → Option α
  | [] => none
  | (k1, v) :: rest => if k1 = k then some v else dictGet k rest

/-- Python dict assignment `d[k] = v`: overwrite an existing key in place,
otherwise append the new key at the end. -/
def dictSet {α : Type} : List (String × α) → String → α → List (String × α)
  | [], k, v => [(k, v)]
  | (k1, v1) :: rest, k, v =>
      if k1 = k then (k, v) :: rest else (k1, v1) :: dictSet rest k v

/-- State of one `AggregateRoot` instance (aggregate_root.py, `__init__`,
lines 30-51): identity, pending-event buffer, optimistic-concurrency version,
plus the domain fields `σ` that subclasses add and handlers mutate. -/
structure AggregateState (σ : Type) where
  aggregate_id : String
  pending_events : List DomainEvent
  version : Int
  domain : σ
deriving DecidableEq

/-- Fresh instance as produced by `AggregateRoot.__init__` (lines 49-51):
given id, empty pending buffer, version 0, and the initial domain fields. -/
def init_aggregate {σ : Type} (id : String) (d : σ) : AggregateState σ :=
  { aggregate_id := id, pending_events := [], version := 0, domain := d }

/-- An event handler: a bound method mutating the domain fields of the
aggregate, possibly raising (modelled as `Except`). -/
abbrev Handler (σ : Type) : Type := σ → DomainEvent → Except String σ

/-- Default `AggregateRoot.handle_event` fallback (lines 273-294): `pass`,
leaving the state untouched. -/
def handle_event {σ : Type} (d : σ) (_e : DomainEvent) : Except String σ :=
  Except.ok d

/-- Dispatch of one event on the domain fields (body of the loop in
`apply_event`, lines 167-173): look up the exact concrete event type in the
handler dict `H`; if present call that handler, else call the (possibly
overridden) `handle_event` fallback `F`. -/
def dispatch_domain {σ : Type} (H : List (String × Handler σ)) (F : Handler σ)
    (d : σ) (e : DomainEvent) : Except String σ :=
  match dictGet e.etype H with
  | some handler => handler d e
  | none => F d e

/-- `AggregateRoot.apply_event(*events)` (lines 142-173): dispatch each event
in order. A raising handler aborts the loop; the state reached so far survives
(Python mutations persist) and the error propagates as the second component. -/
def apply_event {σ : Type} (H : List (String × Handler σ)) (F : Handler σ) :
    AggregateState σ → List DomainEvent → AggregateState σ × Option String
  | s, [] => (s, none)
  | s, e :: es =>
      match dispatch_domain H F s.domain e with
      | Except.ok d => apply_event H F { s with domain := d } es
      | Except.error err => (s, some err)

/-- `AggregateRoot.produce_events(*events)` (lines 108-140): for each event in
argument order, first `apply_event(event)`, then append it to
`_pending_events`. A raising handler aborts before the append. -/
def produce_events {σ : Type} (H : List (String × Handler σ)) (F : Handler σ) :
    AggregateState σ → List DomainEvent → AggregateState σ × Option String
  | s, [] => (s, none)
  | s, e :: es =>
      match apply_event H F s [e] with
      | (s1, none) =>
          produce_events H F
            { s1 with pending_events := s1.pending_events ++ [e] } es
      | (s1, some err) => (s1, some err)

/-- `AggregateRoot.clear_events` (lines 175-193): `self._pending_events.clear()`. -/
def clear_events {σ : Type} (s : AggregateState σ) : AggregateState σ :=
  { s with pending_events := [] }

/-- Version setter (lines 93-106): reject any value below the current version
with a ValueError, otherwise store the new value. -/
def set_version {σ : Type} (s : AggregateState σ) (value : Int) :
    Except String (AggregateState σ) :=
  if value < s.version then
    Except.error "Version must be greater than or equal to current version"
  else Except.ok { s with version := value }

/-- `AggregateRoot.flush` context manager (lines 296-322): yield the pending
events to the body; if the body returns normally run `clear_events`, if it
raises propagate the original error and leave the state untouched. -/
def flush {σ ε α : Type} (s : AggregateState σ)
    (body : List DomainEvent → Except ε α) : AggregateState σ × Except ε α :=
  match body s.pending_events with
  | Except.ok a => (clear_events s, Except.ok a)
  | Except.error err => (s, Except.error err)

/-- Decorator `AggregateRoot.handles_events(event_type)` applied to a handler
(lines 265-269): `cls._event_handlers[event_type] = handler`. The dict that
receives the entry is the one reachable from `cls`; with the usage pattern of
the repository (every decoration site writes through `AggregateRoot`), all
registrations land in one shared dict, threaded here as the first argument. -/
def handles_events {σ : Type} (event_handlers : List (String × Handler σ))
    (event_type : String) (handler : Handler σ) : List (String × Handler σ) :=
  dictSet event_handlers event_type handler

/-- Errors raised by event-class registration in `SourceEventMeta.__new__`
(events.py lines 20-42): the duplicate ValueError, or the KeyError produced by
the error-message f-string when it indexes the registry with the class name
while the colliding key is a custom event-type name. -/
inductive RegError where
  | duplicateEventType (event_type : String) (registered : Nat)
  | keyError (name : String)
deriving DecidableEq

/-- `SourceEventMeta.__new__` (events.py lines 20-42). `name` is the class
name, `event_type` the value of the `event_type` classmethod resolved on the
new class (defaulting to the class name), `class_id` identifies the new class
object. Classes literally named Event or DomainEvent are skipped; otherwise an
already-present event-type key raises and a fresh key is inserted. -/
def register_event_class (registry : List (String × Nat)) (name : String)
    (event_type : String) (class_id : Nat) :
    Except RegError (List (String × Nat)) :=
  if name = "Event" ∨ name = "DomainEvent" then Except.ok registry
  else
    match dictGet event_type registry with
    | some _ =>
        match dictGet name registry with
        | some registered =>
            Except.error (RegError.duplicateEventType event_type registered)
        | none => Except.error (RegError.keyError name)
    | none => Except.ok (dictSet registry event_type class_id)

/-- `SourceEventMeta.get_event_type` (events.py lines 44-55):
`cls._registry.get(event_type)`. -/
def get_event_type (event_type : String) (registry : List (String × Nat)) :
    Option Nat :=
  dictGet event_type registry

/-- Schema entry of one dataclass field: its name and, when the field has a
default, the default value. -/
structure FieldSpec where
  name : String
  default : Option PyVal
deriving DecidableEq

/-- Event instance of a concrete event class: its `__dict__`, holding every
declared field with its value, in field-declaration order. -/
structure EventInst where
  fields : List (String × PyVal)
deriving DecidableEq

/-- `Event.to_dict` (events.py lines 96-103): `return self.__dict__`. -/
def to_dict (e : EventInst) : List (String × PyVal) :=
  e.fields

/-- Dataclass `__init__` applied to the keyword arguments that
`Event.from_dict` passes on: each declared field, in order, takes its value
from `data` when the key is present (keys outside the schema are never looked
at, mirroring the filtering step), else its default, else construction fails
with a TypeError for the missing required argument. -/
def init_fields : List FieldSpec → List (String × PyVal) →
    Option (List (String × PyVal))
  | [], _ => some []
  | f :: rest, data =>
      match dictGet f.name data, f.default with
      | some v, _ => (init_fields rest data).map (fun tail => (f.name, v) :: tail)
      | none, some v => (init_fields rest data).map (fun tail => (f.name, v) :: tail)
      | none, none => none

/-- `Event.from_dict` (events.py lines 79-94): filter the incoming mapping to
the declared field names and construct the instance via the dataclass
constructor. -/
def from_dict (schema : List FieldSpec) (data : List (String × PyVal)) :
    Option EventInst :=
  (init_fields schema data).map EventInst.mk

/-- Derived specification: the state of the domain fields after folding a list
of events through the dispatch of `apply_event`, together with the error of
the first failing handler, if any. Dispatch stops at the first failure and
keeps the domain state reached before it. -/
def apply_domain_list {σ : Type} (H : List (String × Handler σ))
    (F : Handler σ) : σ → List DomainEvent → σ × Option String
  | d, [] => (d, none)
  | d, e :: es =>
      match dispatch_domain H F d e with
      | Except.ok d1 => apply_domain_list H F d1 es
      | Except.error err => (d, some err)

/-- Derived specification: the events, in argument order, whose handlers
complete before the first failing dispatch (all of them when none fails). -/
def handled_until_failure {σ : Type} (H : List (String × Handler σ))
    (F : Handler σ) : σ → List DomainEvent → List DomainEvent
  | _, [] => []
  | d, e :: es =>
      match dispatch_domain H F d e with
      | Except.ok d1 => e :: handled_until_failure H F d1 es
      | Except.error _ => []

/-- Characterization of `apply_event`: it only ever rewrites the domain
fields, folding the events through dispatch, and reports the first handler
failure; identity, version and the pending buffer are untouched. -/
theorem apply_event_eq {σ : Type} (H : List (String × Handler σ))
    (F : Handler σ) (s : AggregateState σ) (es : List DomainEvent) :
    apply_event H F s es =
      ({ s with domain := (apply_domain_list H F s.domain es).1 },
        (apply_domain_list H F s.domain es).2) := by
  induction es generalizing s with
  | nil => simp [apply_event, apply_domain_list]
  | cons e es ih =>
      simp only [apply_event, apply_domain_list]
      cases hd : dispatch_domain H F s.domain e with
      | ok d1 => simpa using ih { s with domain := d1 }
      | error err => rfl

/-- Characterization of `produce_events`: domain fields and reported failure
agree with `apply_event`, and the pending buffer grows by exactly the events
whose handlers completed, in argument order. -/
theorem produce_events_eq {σ : Type} (H : List (String × Handler σ))
    (F : Handler σ) (s : AggregateState σ) (es : List DomainEvent) :
    produce_events H F s es =
      ({ s with
          domain := (apply_domain_list H F s.domain es).1,
          pending_events :=
            s.pending_events ++ handled_until_failure H F s.domain es },
        (apply_domain_list H F s.domain es).2) := by
  induction es generalizing s with
  | nil => simp [produce_events, apply_domain_list, handled_until_failure]
  | cons e es ih =>
      simp only [produce_events, apply_event, apply_domain_list,
        handled_until_failure]
      cases hd : dispatch_domain H F s.domain e with
      | ok d1 =>
          simp only [apply_event]
          have h2 := ih { s with pending_events := s.pending_events ++ [e], domain := d1 }
          simpa [List.append_assoc] using h2
      | error err => simp

/-- If no handler in the list fails, every event is handled. -/
theorem handled_until_failure_of_ok {σ : Type} (H : List (String × Handler σ))
    (F : Handler σ) (d : σ) (es : List DomainEvent)
    (h : (apply_domain_list H F d es).2 = none) :
    handled_until_failure H F d es = es := by
  induction es generalizing d with
  | nil => rfl
  | cons e es ih =>
      simp only [apply_domain_list, handled_until_failure] at h ⊢
      cases hd : dispatch_domain H F d e with
      | ok d1 =>
          rw [hd] at h
          simp [ih d1 h]
      | error err => rw [hd] at h; simp at h

/-- Lookup in an association list with distinct keys finds every stored pair. -/
theorem dictGet_of_mem_of_nodup {α : Type} :
    ∀ (l : List (String × α)), (l.map Prod.fst).Nodup →
      ∀ p ∈ l, dictGet p.1 l = some p.2 := by
  intro l
  induction l with
  | nil => intro _ p hp; cases hp
  | cons q rest ih =>
      intro hnd p hp
      rw [List.map_cons, List.nodup_cons] at hnd
      rcases List.mem_cons.mp hp with hp1 | hp1
      · subst hp1; simp [dictGet]
      · have hne : q.1 ≠ p.1 := fun hcontra =>
          hnd.1 (hcontra ▸ List.mem_map_of_mem Prod.fst hp1)
        simp [dictGet, hne, ih hnd.2 p hp1]

/-- Constructing fields from a data mapping that stores exactly the schema
fields, in order, reproduces those fields. -/
theorem init_fields_self :
    ∀ (schema : List FieldSpec) (l data : List (String × PyVal)),
      l.map Prod.fst = schema.map FieldSpec.name →
      (∀ p ∈ l, dictGet p.1 data = some p.2) →
      init_fields schema data = some l := by
  intro schema
  induction schema with
  | nil =>
      intro l data hmap _
      have : l = [] := by
        cases l with
        | nil => rfl
        | cons p rest => simp at hmap
      subst this; rfl
  | cons f rest ih =>
      intro l data hmap hget
      cases l with
      | nil => simp at hmap
      | cons p tail =>
          obtain ⟨pk, pv⟩ := p
          simp only [List.map_cons, List.cons.injEq] at hmap
          obtain ⟨hname, hmap2⟩ := hmap
          subst hname
          have hv : dictGet f.name data = some pv :=
            hget (f.name, pv) (List.mem_cons_self _ _)
          have htail : init_fields rest data = some tail :=
            ih tail data hmap2 (fun q hq => hget q (List.mem_cons_of_mem _ hq))
          simp [init_fields, hv, htail]

/-- Domain fields of the `Account` hierarchy in
tests/test_aggregate_root_inheritance.py: `_name` and `_balance` (Decimal
values in the test are whole numbers, embedded as integers). -/
structure AccountState where
  name : Option String
  balance : Int
deriving DecidableEq

/-- Handler type of the account hierarchy. -/
abbrev AccountHandler : Type := Handler AccountState

/-- Event `AccountCreated(name)` of the inheritance test. -/
def AccountCreated (name : String) : DomainEvent :=
  { etype := "AccountCreated", fields := [("name", PyVal.str name)] }

/-- Event `AccountDebited(value)` of the inheritance test. -/
def AccountDebited (value : Int) : DomainEvent :=
  { etype := "AccountDebited", fields := [("value", PyVal.int value)] }

/-- Event `AccountCredited(value)` of the inheritance test. -/
def AccountCredited (value : Int) : DomainEvent :=
  { etype := "AccountCredited", fields := [("value", PyVal.int value)] }

/-- Read a string field of an event. -/
def event_str (e : DomainEvent) (k : String) : Option String :=
  match dictGet k e.fields with
  | some (PyVal.str s) => some s
  | _ => none

/-- Read an integer field of an event. -/
def event_int (e : DomainEvent) (k : String) : Int :=
  match dictGet k e.fields with
  | some (PyVal.int n) => n
  | _ => 0

/-- `Account._on_account_created`: `self._name = event.name`. -/
def account_on_account_created : AccountHandler :=
  fun d e => Except.ok { d with name := event_str e "name" }

/-- `Account._on_account_debited`: `pass`. -/
def account_on_account_debited : AccountHandler :=
  fun d _ => Except.ok d

/-- `Account._on_account_credited`: `pass`. -/
def account_on_account_credited : AccountHandler :=
  fun d _ => Except.ok d

/-- `AssetAccount._on_account_debited`: `self._balance += event.value`. -/
def asset_on_account_debited : AccountHandler :=
  fun d e => Except.ok { d with balance := d.balance + event_int e "value" }

/-- `AssetAccount._on_account_credited`: `self._balance -= event.value`. -/
def asset_on_account_credited : AccountHandler :=
  fun d e => Except.ok { d with balance := d.balance - event_int e "value" }

/-- `LiabilityAccount._on_account_debited`: `self._balance -= event.value`. -/
def liability_on_account_debited : AccountHandler :=
  fun d e => Except.ok { d with balance := d.balance - event_int e "value" }

/-- `LiabilityAccount._on_account_credited`: `self._balance += event.value`. -/
def liability_on_account_credited : AccountHandler :=
  fun d e => Except.ok { d with balance := d.balance + event_int e "value" }

/-- `DoubleLiabilityAccount._on_account_debited`:
`self._balance -= 2 * event.value`. -/
def double_liability_on_account_debited : AccountHandler :=
  fun d e => Except.ok { d with balance := d.balance - 2 * event_int e "value" }

/-- `DoubleLiabilityAccount._on_account_created`:
`self._name = event.name + " " + event.name`. -/
def double_liability_on_account_created : AccountHandler :=
  fun d e =>
    Except.ok { d with name := (event_str e "name").map (fun n => n ++ " " ++ n) }

/-- The decoration sites of tests/test_aggregate_root_inheritance.py in
module-load order: the class bodies of Account (lines 53-63), AssetAccount
(lines 74-80), LiabilityAccount (lines 91-97) and DoubleLiabilityAccount
(lines 108-114), each invoking `AggregateRoot.handles_events`. -/
def inheritance_test_registrations : List (String × AccountHandler) :=
  [ ("AccountCreated", account_on_account_created),
    ("AccountDebited", account_on_account_debited),
    ("AccountCredited", account_on_account_credited),
    ("AccountDebited", asset_on_account_debited),
    ("AccountCredited", asset_on_account_credited),
    ("AccountDebited", liability_on_account_debited),
    ("AccountCredited", liability_on_account_credited),
    ("AccountDebited", double_liability_on_account_debited),
    ("AccountCreated", double_liability_on_account_created) ]

/-- The single `_event_handlers` dict after module load: every decoration site
calls `AggregateRoot.handles_events(...)`, so `cls` is `AggregateRoot` each
time, the dict is created once on `AggregateRoot`, and every class in the
hierarchy reads the same dict through attribute inheritance. -/
def inheritance_test_handlers : List (String × AccountHandler) :=
  inheritance_test_registrations.foldl
    (fun d r => handles_events d r.1 r.2) []

/-- A fresh `Account` instance (`Account.__init__`): no name, balance 0. -/
def fresh_account : AggregateState AccountState :=
  init_aggregate "base" { name := none, balance := 0 }

/-- The scenario of `test_event_handler_heirarchy` restricted to the base
`Account` instance: `Account.create("Base")` produces `AccountCreated("Base")`
and `debit(Decimal(100))` produces `AccountDebited(100)`. -/
def base_account_after_test : AggregateState AccountState × Option String :=
  produce_events inheritance_test_handlers handle_event fresh_account
    [AccountCreated "Base", AccountDebited 100]

/-- C1: the claim says an event applied to a base-class instance invokes only
the base handler even when a derived class overrides it. The code contradicts
this and its own test: because every `handles_events` decoration writes into
the one `_event_handlers` dict reachable from `AggregateRoot`, the handler
registered last at module load wins for every class in the hierarchy. On the
scenario of `test_event_handler_heirarchy`, the base `Account` instance ends
with name `Base Base` and balance -200 (the `DoubleLiabilityAccount`
handlers), where the test asserts name `Base` and balance 0. -/
theorem base_instance_gets_last_registered_handler :
    base_account_after_test.1.domain =
      { name := some "Base Base", balance := -200 }
    ∧ base_account_after_test.2 = none
    ∧ base_account_after_test.1.domain.balance ≠ 0 := by
  refine ⟨?_, ?_, ?_⟩ <;> decide

/-- C2 counterexample: re-registering the identical class (same class name,
same event-type name, same class identity 0, as on a module re-execution)
fails with the duplicate error, although the type name is registered to that
very class and not to a different one — refuting the claimed idempotency. -/
theorem register_same_class_twice_fails :
    register_event_class [] "X" "X" 0 = Except.ok [("X", 0)]
    ∧ dictGet "X" [("X", (0 : Nat))] = some 0
    ∧ register_event_class [("X", 0)] "X" "X" 0
        = Except.error (RegError.duplicateEventType "X" 0) :=
  ⟨rfl, rfl, rfl⟩

/-- C2 amended: registration of a class not named Event or DomainEvent fails
if and only if its event-type name is already present in the registry — to any
class, the same-named one included; the check is purely name-based, so a
repeated definition of an identical class raises rather than succeeding. -/
theorem register_fails_iff_type_name_taken (registry : List (String × Nat))
    (name event_type : String) (class_id : Nat)
    (h1 : name ≠ "Event") (h2 : name ≠ "DomainEvent") :
    (∃ err, register_event_class registry name event_type class_id
        = Except.error err)
      ↔ (dictGet event_type registry).isSome := by
  unfold register_event_class
  rw [if_neg (by simp [h1, h2])]
  cases hg : dictGet event_type registry with
  | some c => cases dictGet name registry <;> simp
  | none => simp

/-- C2 amended witness: concrete failing re-registration obtained from the
amended theorem. -/
theorem register_fails_iff_type_name_taken_witness :
    ∃ err, register_event_class [("X", 0)] "X" "X" 0 = Except.error err :=
  (register_fails_iff_type_name_taken [("X", 0)] "X" "X" 0
    (by decide) (by decide)).mpr (by decide)

/-- C7: assigning a version below the current one fails with the ValueError
and produces no updated state, while assigning any value greater than or equal
to the current version succeeds and stores exactly that value, leaving every
other field unchanged. -/
theorem version_setter_spec {σ : Type} (s : AggregateState σ) (n : Int) :
    (n < s.version → set_version s n =
        Except.error "Version must be greater than or equal to current version")
    ∧ (s.version ≤ n → set_version s n = Except.ok { s with version := n }) := by
  constructor
  · intro h; rw [set_version, if_pos h]
  · intro h; rw [set_version, if_neg (not_lt.mpr h)]

/-- C7 witness: both branches of the version-setter specification at a
concrete aggregate with version 0. -/
theorem version_setter_spec_witness :
    set_version (init_aggregate "a" (0 : Int)) (-1) =
        Except.error "Version must be greater than or equal to current version"
    ∧ set_version (init_aggregate "a" (0 : Int)) 5 =
        Except.ok { init_aggregate "a" (0 : Int) with version := 5 } :=
  ⟨(version_setter_spec (init_aggregate "a" (0 : Int)) (-1)).1 (by decide),
   (version_setter_spec (init_aggregate "a" (0 : Int)) 5).2 (by decide)⟩

/-- C10: a class defined under the literal name Event or DomainEvent is never
added to the registry and never raises, whatever its event-type name — even
one equal to an already-registered key; since the registry comes back
unchanged, `get_event_type` keeps returning the previously registered class
for that name. -/
theorem event_base_names_skip_registration (registry : List (String × Nat))
    (event_type : String) (class_id : Nat) :
    register_event_class registry "Event" event_type class_id
        = Except.ok registry
    ∧ register_event_class registry "DomainEvent" event_type class_id
        = Except.ok registry := by
  constructor <;> simp [register_event_class]

/-- C3: `produce_events` dispatches each event before appending it, so the
pending buffer afterwards is the prior buffer extended by exactly the events,
in argument order, whose handlers completed before the first failure; a
failing event is never appended. -/
theorem produce_events_pending_is_handled {σ : Type}
    (H : List (String × Handler σ)) (F : Handler σ) (s : AggregateState σ)
    (es : List DomainEvent) :
    (produce_events H F s es).1.pending_events =
      s.pending_events ++ handled_until_failure H F s.domain es := by
  rw [produce_events_eq]

/-- C4: when the body of the flush scope fails, the original error propagates
unwrapped and the state — the pending buffer included — is exactly the state
at entry; when the body returns normally the pending buffer is emptied; in
both cases the outcome is that of the body applied to precisely the events
pending at entry, in order. -/
theorem flush_scope_spec {σ ε α : Type} (s : AggregateState σ)
    (body : List DomainEvent → Except ε α) :
    (∀ err, body s.pending_events = Except.error err →
        flush s body = (s, Except.error err))
    ∧ (∀ a, body s.pending_events = Except.ok a →
        flush s body = ({ s with pending_events := [] }, Except.ok a))
    ∧ (flush s body).2 = body s.pending_events := by
  refine ⟨?_, ?_, ?_⟩
  · intro err herr; simp [flush, herr]
  · intro a ha; simp [flush, ha, clear_events]
  · cases hb : body s.pending_events <;> simp [flush, hb]

/-- Concrete aggregate with one pending event, used to witness the flush
specification. -/
def flush_witness_state : AggregateState Int :=
  { aggregate_id := "a", pending_events := [AccountCreated "Base"],
    version := 0, domain := 0 }

/-- C4 witness: one failing body (a propagated error with the buffer intact)
and one succeeding body (which receives the entry buffer and leaves it empty),
both on a one-event buffer. -/
theorem flush_scope_spec_witness :
    flush flush_witness_state
        (fun _ => (Except.error "boom" : Except String (List DomainEvent)))
      = (flush_witness_state, Except.error "boom")
    ∧ flush flush_witness_state
        (fun evs => (Except.ok evs : Except String (List DomainEvent)))
      = (clear_events flush_witness_state, Except.ok [AccountCreated "Base"]) :=
  ⟨(flush_scope_spec flush_witness_state
      (fun _ => Except.error "boom")).1 "boom" rfl,
   (flush_scope_spec flush_witness_state
      (fun evs => Except.ok evs)).2.1 [AccountCreated "Base"] rfl⟩

/-- C5: reconstructing an event from its class schema and the mapping produced
by `to_dict` yields the event back, for any instance whose field dictionary
lists exactly the declared fields (in declaration order, with the distinct
names every dataclass has). -/
theorem from_dict_to_dict_roundtrip (schema : List FieldSpec) (e : EventInst)
    (hfields : e.fields.map Prod.fst = schema.map FieldSpec.name)
    (hnodup : (e.fields.map Prod.fst).Nodup) :
    from_dict schema (to_dict e) = some e := by
  have h := init_fields_self schema e.fields e.fields hfields
    (dictGet_of_mem_of_nodup e.fields hnodup)
  cases e with
  | mk fields => simp [from_dict, to_dict] at h ⊢; simp [h]

/-- C5 witness: round trip of a concrete two-field event (one field with a
dataclass default, as in SimpleEvent of the tests). -/
theorem from_dict_to_dict_roundtrip_witness :
    from_dict [{ name := "a", default := none },
               { name := "d", default := some (PyVal.int 100) }]
        (to_dict { fields := [("a", PyVal.int 5), ("d", PyVal.int 200)] })
      = some { fields := [("a", PyVal.int 5), ("d", PyVal.int 200)] } :=
  from_dict_to_dict_roundtrip
    [{ name := "a", default := none },
     { name := "d", default := some (PyVal.int 100) }]
    { fields := [("a", PyVal.int 5), ("d", PyVal.int 200)] }
    rfl (by decide)

/-- C6: replaying a sequence of events with `apply_event` on one fresh
instance reaches the same domain state as `produce_events` of the same
sequence on another fresh instance (whenever every handler completes), the
replayed buffer stays empty, and the producing buffer holds the sequence. -/
theorem replay_equivalence {σ : Type} (H : List (String × Handler σ))
    (F : Handler σ) (id1 id2 : String) (d0 : σ) (es : List DomainEvent)
    (h : (produce_events H F (init_aggregate id2 d0) es).2 = none) :
    (apply_event H F (init_aggregate id1 d0) es).1.domain
        = (produce_events H F (init_aggregate id2 d0) es).1.domain
    ∧ (apply_event H F (init_aggregate id1 d0) es).1.pending_events = []
    ∧ (produce_events H F (init_aggregate id2 d0) es).1.pending_events = es := by
  rw [produce_events_eq] at h ⊢
  rw [apply_event_eq]
  refine ⟨rfl, rfl, ?_⟩
  simpa [init_aggregate] using
    handled_until_failure_of_ok H F d0 es (by simpa [init_aggregate] using h)

/-- Counter event used to witness replay equivalence. -/
def incr_event : DomainEvent :=
  { etype := "Incr", fields := [] }

/-- Handler dict of the counter aggregate used to witness replay
equivalence. -/
def incr_handlers : List (String × Handler Int) :=
  [("Incr", fun d _ => Except.ok (d + 1))]

/-- C6 witness: one incrementing event replayed and produced from fresh
counter aggregates. -/
theorem replay_equivalence_witness :
    (apply_event incr_handlers handle_event
        (init_aggregate "a" (0 : Int)) [incr_event]).1.domain
      = (produce_events incr_handlers handle_event
          (init_aggregate "b" (0 : Int)) [incr_event]).1.domain
    ∧ (apply_event incr_handlers handle_event
        (init_aggregate "a" (0 : Int)) [incr_event]).1.pending_events = []
    ∧ (produce_events incr_handlers handle_event
        (init_aggregate "b" (0 : Int)) [incr_event]).1.pending_events
      = [incr_event] :=
  replay_equivalence incr_handlers handle_event "a" "b" 0 [incr_event] rfl

/-- C8: when the exact concrete type of an event has no entry in the handler
dict, dispatch invokes the `handle_event` fallback hook with that event, and
with the default no-op fallback the aggregate comes back with every field
unchanged and no error. -/
theorem fallback_dispatch_spec {σ : Type} (H : List (String × Handler σ))
    (F : Handler σ) (d : σ) (s : AggregateState σ) (e : DomainEvent)
    (h : dictGet e.etype H = none) :
    dispatch_domain H F d e = F d e
    ∧ apply_event H handle_event s [e] = (s, none) := by
  constructor
  · rw [dispatch_domain, h]
  · simp [apply_event, dispatch_domain, handle_event, h]

/-- Event whose type is registered nowhere, used to witness fallback
dispatch. -/
def unknown_event : DomainEvent :=
  { etype := "Unknown", fields := [] }

/-- Overriding fallback used to witness that dispatch reaches the hook. -/
def add_seven_fallback : Handler Int :=
  fun d _ => Except.ok (d + 7)

/-- C8 witness: an event with an unregistered type dispatched on an empty
handler dict reaches the fallback, and the default fallback changes nothing. -/
theorem fallback_dispatch_spec_witness :
    dispatch_domain ([] : List (String × Handler Int))
        add_seven_fallback 3 unknown_event
      = add_seven_fallback 3 unknown_event
    ∧ apply_event ([] : List (String × Handler Int)) handle_event
        (init_aggregate "a" (3 : Int)) [unknown_event]
      = (init_aggregate "a" (3 : Int), none) :=
  fallback_dispatch_spec [] add_seven_fallback 3
    (init_aggregate "a" (3 : Int)) unknown_event rfl

/-- C9: none of the core operations — `produce_events`, `apply_event`,
`clear_events`, or the flush scope (either outcome) — changes the identity or
the version of the aggregate. -/
theorem core_ops_preserve_identity_and_version {σ ε α : Type}
    (H : List (String × Handler σ)) (F : Handler σ) (s : AggregateState σ)
    (es : List DomainEvent) (body : List DomainEvent → Except ε α) :
    ((produce_events H F s es).1.aggregate_id = s.aggregate_id
      ∧ (produce_events H F s es).1.version = s.version)
    ∧ ((apply_event H F s es).1.aggregate_id = s.aggregate_id
      ∧ (apply_event H F s es).1.version = s.version)
    ∧ ((clear_events s).aggregate_id = s.aggregate_id
      ∧ (clear_events s).version = s.version)
    ∧ ((flush s body).1.aggregate_id = s.aggregate_id
      ∧ (flush s body).1.version = s.version) := by
  refine ⟨?_, ?_, ⟨rfl, rfl⟩, ?_⟩
  · rw [produce_events_eq]; exact ⟨rfl, rfl⟩
  · rw [apply_event_eq]; exact ⟨rfl, rfl⟩
  · cases hb : body s.pending_events <;> simp [flush, hb, clear_events]

end AggregateRootLib
